import Mathlib

/-!
Shallow embedding of the Local AI Chat application
(`src/Local-AI-Chat/Local-AI-Chat.py`, together with the near-duplicate
copy `src/unnamed/part_000`, named "Local-AI-Chat copy.py" in its header
comment).

The application keeps an in-memory list of chat sessions
(`self.chat_sessions.value`: a Python list of dicts with keys
`id`, `name`, `messages`, `created_at`), an active-session pointer
(`self.current_chat_id.value`), UI-bound input state (selected model,
model options, text field), and persists the session list to the file
`chat_history.json` with `json.dump` / `json.load`.

Wall-clock timestamps (`datetime.datetime.now().isoformat()`) are
nondeterministic inputs; each operation that records one takes it as an
explicit `now : String` argument.
-/

/-- A chat message, as stored in a session's `messages` list with keys
`sender`, `text`, `timestamp` (the code uses the sender strings
`"user"` and `"ai"`). -/
structure Message where
  sender : String
  text : String
  timestamp : String
deriving DecidableEq, Repr

/-- A chat session record with keys `id`, `name`, `messages`,
`created_at`.  Ids are assigned by `handle_new_chat` as
`len(sessions) + 1`, hence `Nat`. -/
structure ChatSession where
  id : Nat
  name : String
  messages : List Message
  created_at : String
deriving DecidableEq, Repr

/-! ## The persistence encoding

`save_chat_history` / `load_chat_history`
(`src/Local-AI-Chat/Local-AI-Chat.py` lines 495–504) delegate to
Python's `json` module, an external library.  We model `json.dump` on
the exact value shape this application writes — a list of session dicts
with key order `id, name, messages, created_at`, messages with key
order `sender, text, timestamp`, rendered with `json.dump`'s default
item/key separators (comma-space and colon-space) — and `json.load` as
a parser of such documents.  String escaping follows JSON: quote and
backslash are escaped, control characters below `0x20` become a short
escape or a `\u00XX` escape, and every other character is emitted
literally. -/

/-- The hexadecimal digit character for `n < 16` (lowercase, as Python's
`json` writes them). -/
def hexDigitChar (n : Nat) : Char :=
  if n < 10 then Char.ofNat (48 + n) else Char.ofNat (87 + n)

/-- JSON escaping of a single character. -/
def escapeChar (c : Char) : List Char :=
  if c = '"' then ['\\', '"']
  else if c = '\\' then ['\\', '\\']
  else if c = '\n' then ['\\', 'n']
  else if c = '\t' then ['\\', 't']
  else if c = '\r' then ['\\', 'r']
  else if c.toNat = 8 then ['\\', 'b']
  else if c.toNat = 12 then ['\\', 'f']
  else if c.toNat < 32 then
    ['\\', 'u', '0', '0', hexDigitChar (c.toNat / 16), hexDigitChar (c.toNat % 16)]
  else [c]

/-- JSON escaping of a character list. -/
def escapeList : List Char → List Char
  | [] => []
  | c :: tl => escapeChar c ++ escapeList tl

/-- A JSON string literal: quote, escaped content, quote. -/
def dumpStringChars (s : String) : List Char :=
  '"' :: escapeList s.data ++ ['"']

/-- The decimal digit character for `d < 10`. -/
def decDigitChar (d : Nat) : Char := Char.ofNat (48 + d)

/-- Decimal digits of `n`, most significant first, by repeated division
(`fuel`-bounded so that it is structurally recursive; any
`fuel ≥ n` is enough). -/
def natCharsAux : Nat → Nat → List Char
  | 0, _ => []
  | fuel + 1, n =>
    if n = 0 then []
    else natCharsAux fuel (n / 10) ++ [decDigitChar (n % 10)]

/-- The decimal rendering of a natural number, as Python writes an
`int`. -/
def natChars (n : Nat) : List Char :=
  if n = 0 then ['0'] else natCharsAux n n

/-- Literal fragments of the document (braces written with `\x7b` /
`\x7d` escapes). -/
def litMsgOpen : List Char := "\x7b\"sender\": ".data

def litText : List Char := ", \"text\": ".data

def litTimestamp : List Char := ", \"timestamp\": ".data

def litSessOpen : List Char := "\x7b\"id\": ".data

def litName : List Char := ", \"name\": ".data

def litMessages : List Char := ", \"messages\": ".data

def litCreated : List Char := ", \"created_at\": ".data

def litClose : List Char := "\x7d".data

/-- `json.dump` of one message dict. -/
def dumpMessageChars (m : Message) : List Char :=
  litMsgOpen ++ dumpStringChars m.sender ++ litText ++ dumpStringChars m.text ++
    litTimestamp ++ dumpStringChars m.timestamp ++ litClose

/-- The comma-separated continuation of a message array. -/
def msgsTailChars : List Message → List Char
  | [] => []
  | m :: tl => ',' :: ' ' :: dumpMessageChars m ++ msgsTailChars tl

/-- `json.dump` of a message array. -/
def dumpMessagesChars : List Message → List Char
  | [] => ['[', ']']
  | m :: tl => '[' :: dumpMessageChars m ++ msgsTailChars tl ++ [']']

/-- `json.dump` of one session dict. -/
def dumpSessionChars (s : ChatSession) : List Char :=
  litSessOpen ++ natChars s.id ++ litName ++ dumpStringChars s.name ++
    litMessages ++ dumpMessagesChars s.messages ++
    litCreated ++ dumpStringChars s.created_at ++ litClose

/-- The comma-separated continuation of the session array. -/
def sessTailChars : List ChatSession → List Char
  | [] => []
  | s :: tl => ',' :: ' ' :: dumpSessionChars s ++ sessTailChars tl

/-- `json.dump` of the top-level session array. -/
def dumpSessionsChars : List ChatSession → List Char
  | [] => ['[', ']']
  | s :: tl => '[' :: dumpSessionChars s ++ sessTailChars tl ++ [']']

/-- `json.dump(self.chat_sessions.value, f)`: the full text written to
`chat_history.json`. -/
def dumpSessions (ss : List ChatSession) : String :=
  ⟨dumpSessionsChars ss⟩

/-! ### The parsing side of the persistence port (`json.load`),
restricted to the document shape the application writes. -/

/-- Expect the exact literal `lit` as a prefix, returning the remainder. -/
def parseLit : List Char → List Char → Option (List Char)
  | [], cs => some cs
  | _ :: _, [] => none
  | l :: ls, c :: cs => if c = l then parseLit ls cs else none

/-- Hexadecimal digit recogniser (digits and lowercase letters). -/
def isHexDigitChar (c : Char) : Bool :=
  c.isDigit || (decide (97 ≤ c.toNat) && decide (c.toNat ≤ 102))

/-- Value of a hexadecimal digit character. -/
def hexVal (c : Char) : Nat :=
  if c.isDigit then c.toNat - 48 else c.toNat - 87

/-- Parse the body of a JSON string up to and including the closing
quote, undoing the escapes.  `fuel`-bounded structural recursion; any
`fuel ≥` the number of input characters is enough. -/
def parseStringBody : Nat → List Char → Option (List Char × List Char)
  | 0, _ => none
  | _ + 1, [] => none
  | fuel + 1, c :: cs =>
    if c = '"' then some ([], cs)
    else if c = '\\' then
      match cs with
      | [] => none
      | e :: cs1 =>
        if e = '"' then (parseStringBody fuel cs1).map fun p => ('"' :: p.1, p.2)
        else if e = '\\' then (parseStringBody fuel cs1).map fun p => ('\\' :: p.1, p.2)
        else if e = 'n' then (parseStringBody fuel cs1).map fun p => ('\n' :: p.1, p.2)
        else if e = 't' then (parseStringBody fuel cs1).map fun p => ('\t' :: p.1, p.2)
        else if e = 'r' then (parseStringBody fuel cs1).map fun p => ('\r' :: p.1, p.2)
        else if e = 'b' then (parseStringBody fuel cs1).map fun p => (Char.ofNat 8 :: p.1, p.2)
        else if e = 'f' then (parseStringBody fuel cs1).map fun p => (Char.ofNat 12 :: p.1, p.2)
        else if e = 'u' then
          match cs1 with
          | h1 :: h2 :: h3 :: h4 :: cs2 =>
            if isHexDigitChar h1 && isHexDigitChar h2 && isHexDigitChar h3 && isHexDigitChar h4 then
              (parseStringBody fuel cs2).map fun p =>
                (Char.ofNat (((hexVal h1 * 16 + hexVal h2) * 16 + hexVal h3) * 16 + hexVal h4)
                  :: p.1, p.2)
            else none
          | _ => none
        else none
    else (parseStringBody fuel cs).map fun p => (c :: p.1, p.2)

/-- Parse a JSON string literal (opening quote, body, closing quote). -/
def parseJString (cs : List Char) : Option (List Char × List Char) :=
  match cs with
  | '"' :: cs1 => parseStringBody cs1.length cs1
  | _ => none

/-- Parse a decimal natural number (one or more digits). -/
def parseNatChars (cs : List Char) : Option (Nat × List Char) :=
  let digits := cs.takeWhile Char.isDigit
  let rest := cs.dropWhile Char.isDigit
  if digits.isEmpty then none
  else some (digits.foldl (fun acc c => acc * 10 + (c.toNat - 48)) 0, rest)

/-- Parse one message dict. -/
def parseMessage (cs : List Char) : Option (Message × List Char) := do
  let cs1 ← parseLit litMsgOpen cs
  let (sender, cs2) ← parseJString cs1
  let cs3 ← parseLit litText cs2
  let (text, cs4) ← parseJString cs3
  let cs5 ← parseLit litTimestamp cs4
  let (ts, cs6) ← parseJString cs5
  let cs7 ← parseLit litClose cs6
  pure (⟨⟨sender⟩, ⟨text⟩, ⟨ts⟩⟩, cs7)

/-- Parse the continuation of a non-empty message array: either the
closing bracket, or comma-space, a message, and the rest.
`fuel`-bounded; one unit of fuel per array element is enough. -/
def parseMessagesTail : Nat → List Char → Option (List Message × List Char)
  | 0, _ => none
  | _ + 1, ']' :: rest => some ([], rest)
  | fuel + 1, ',' :: ' ' :: cs1 =>
    match parseMessage cs1 with
    | some (m, cs2) =>
      match parseMessagesTail fuel cs2 with
      | some (ms, rest) => some (m :: ms, rest)
      | none => none
    | none => none
  | _ + 1, _ => none

/-- Parse a message array. -/
def parseMessages (cs : List Char) : Option (List Message × List Char) :=
  match cs with
  | '[' :: ']' :: rest => some ([], rest)
  | '[' :: cs1 =>
    match parseMessage cs1 with
    | some (m, cs2) =>
      match parseMessagesTail cs2.length cs2 with
      | some (ms, rest) => some (m :: ms, rest)
      | none => none
    | none => none
  | _ => none

/-- Parse one session dict. -/
def parseSession (cs : List Char) : Option (ChatSession × List Char) := do
  let cs1 ← parseLit litSessOpen cs
  let (i, cs2) ← parseNatChars cs1
  let cs3 ← parseLit litName cs2
  let (nm, cs4) ← parseJString cs3
  let cs5 ← parseLit litMessages cs4
  let (ms, cs6) ← parseMessages cs5
  let cs7 ← parseLit litCreated cs6
  let (ca, cs8) ← parseJString cs7
  let cs9 ← parseLit litClose cs8
  pure (⟨i, ⟨nm⟩, ms, ⟨ca⟩⟩, cs9)

/-- Parse the continuation of a non-empty session array. -/
def parseSessionsTail : Nat → List Char → Option (List ChatSession × List Char)
  | 0, _ => none
  | _ + 1, ']' :: rest => some ([], rest)
  | fuel + 1, ',' :: ' ' :: cs1 =>
    match parseSession cs1 with
    | some (s, cs2) =>
      match parseSessionsTail fuel cs2 with
      | some (ss, rest) => some (s :: ss, rest)
      | none => none
    | none => none
  | _ + 1, _ => none

/-- Parse the top-level session array. -/
def parseSessions (cs : List Char) : Option (List ChatSession × List Char) :=
  match cs with
  | '[' :: ']' :: rest => some ([], rest)
  | '[' :: cs1 =>
    match parseSession cs1 with
    | some (s, cs2) =>
      match parseSessionsTail cs2.length cs2 with
      | some (ss, rest) => some (s :: ss, rest)
      | none => none
    | none => none
  | _ => none

/-- `json.load(f)` on the contents of `chat_history.json`: the whole
text must parse as a session array (`none` models the exception a
malformed file raises). -/
def loadSessions (s : String) : Option (List ChatSession) :=
  match parseSessions s.data with
  | some (ss, []) => some ss
  | _ => none

/-! ## The streaming transport

`process_ai_response` iterates `response.iter_lines()`.  Each line is
either empty (skipped by `if line:`), not valid JSON (`json.loads`
raises), or a JSON object which the code inspects for a `"response"`
key (a text fragment), else an `"error"` key (an error fragment), else
neither key (ignored). -/

/-- A parsed stream fragment: a JSON object with a `"response"` text
field, or one with an `"error"` field (and no `"response"` field), or
one with neither. -/
inductive Chunk where
  | text (s : String)
  | err (e : String)
  | other
deriving DecidableEq, Repr

/-- One line of the newline-delimited transport. -/
inductive Line where
  | blank
  | malformed
  | chunk (c : Chunk)
deriving DecidableEq, Repr

/-- The observable outcome of one run of the stream-reading loop:
either the loop ran to exhaustion and the accumulated text is handed to
the commit step (`committed`), or an error was surfaced with
`show_error` and the worker returned without committing (`failed`
carries the surfaced message). -/
inductive StreamOutcome where
  | committed (t : String)
  | failed (msg : String)
deriving DecidableEq, Repr

/-- The fragment loop of `process_ai_response` in
`src/Local-AI-Chat/Local-AI-Chat.py` (lines 283–315), with `acc` the
join of the `full_response` char list.  The per-character inner loop
appends each character of `chunk["response"]` in order, so over one
fragment it appends exactly that fragment's text.  `json.loads`
raising on a malformed line is caught only by the `except Exception`
wrapped around the whole `for` loop, which surfaces a
`Processing Error` and returns; an error fragment surfaces an
`AI Error` and returns; in both cases no commit happens. -/
def processLines : List Line → String → StreamOutcome
  | [], acc => .committed acc
  | .blank :: rest, acc => processLines rest acc
  | .malformed :: _, _ => .failed ("Processing Error")
  | .chunk (.text s) :: rest, acc => processLines rest (acc ++ s)
  | .chunk (.err e) :: _, _ => .failed ("AI Error: " ++ e)
  | .chunk .other :: rest, acc => processLines rest acc

/-- Outcome of the stream-reading worker of
`src/Local-AI-Chat/Local-AI-Chat.py` on a given line sequence, starting
from the empty accumulation `full_response = []`. -/
def process_ai_response (lines : List Line) : StreamOutcome :=
  processLines lines ""

/-- The fragment loop of `process_ai_response` in `src/unnamed/part_000`
(lines 259–283).  The only difference from the main copy that is
visible in the outcome: `json.loads` failures are caught per line by
`except json.JSONDecodeError: continue`, so a malformed line is skipped
and the loop goes on with the next line. -/
def processLinesCopy : List Line → String → StreamOutcome
  | [], acc => .committed acc
  | .blank :: rest, acc => processLinesCopy rest acc
  | .malformed :: rest, acc => processLinesCopy rest acc
  | .chunk (.text s) :: rest, acc => processLinesCopy rest (acc ++ s)
  | .chunk (.err e) :: _, _ => .failed ("AI Error: " ++ e)
  | .chunk .other :: rest, acc => processLinesCopy rest acc

/-- Outcome of the stream-reading worker of `src/unnamed/part_000`. -/
def process_ai_response_copy (lines : List Line) : StreamOutcome :=
  processLinesCopy lines ""

/-- The text fields of the text fragments of a line sequence, in
arrival order. -/
def fragmentTexts (lines : List Line) : List String :=
  lines.filterMap fun l =>
    match l with
    | .chunk (.text s) => some s
    | _ => none

/-! ## Application state and session-store operations -/

/-- Python's `str.strip()` with no argument: drop leading and trailing
whitespace.  (Defined on the character list so that it is computable by
the kernel.) -/
def pyStrip (s : String) : String :=
  ⟨((s.data.dropWhile Char.isWhitespace).reverse.dropWhile Char.isWhitespace).reverse⟩

/-- The mutable application state touched by the session and stream
logic.

`chat_sessions` is `self.chat_sessions.value`; `current_chat_id` is
`self.current_chat_id.value` (`none` models Python `None`);
`model_value` / `model_options` are the model dropdown's selected value
and its option keys; `chat_input` is the text field's value;
`inFlight` counts the background streaming worker threads that
`process_ai_response` has started (each run ends in
`threading.Thread(target=process, daemon=True).start()`) and that have
not yet terminated; `file` is the contents of `chat_history.json`
(`none` = the file does not exist). -/
structure AppState where
  chat_sessions : List ChatSession
  current_chat_id : Option Nat
  model_value : Option String
  model_options : List String
  chat_input : String
  inFlight : Nat
  file : Option String
deriving DecidableEq, Repr

/-- `next((s for s in sessions if s["id"] == cid), None)` followed by an
in-place `append` on the found dict: append `msg` to the messages of
the first session whose id is `cid`; if none matches, the list is
unchanged. -/
def appendToFirst (sessions : List ChatSession) (cid : Nat) (msg : Message) :
    List ChatSession :=
  match sessions with
  | [] => []
  | s :: rest =>
    if s.id = cid then { s with messages := s.messages ++ [msg] } :: rest
    else s :: appendToFirst rest cid msg

/-- `add_message_to_session(sender, text)`
(`src/Local-AI-Chat/Local-AI-Chat.py` lines 353–361): look up the first
session whose id equals `self.current_chat_id.value` and append the
message dict `(sender, text, now)` to its `messages`; if the lookup
finds nothing (in particular when `current_chat_id` is `None`), do
nothing.  The function has no error path, surfaces nothing, and does
not write the persistence file. -/
def add_message_to_session (st : AppState) (sender text now : String) :
    AppState :=
  match st.current_chat_id with
  | none => st
  | some cid =>
    { st with chat_sessions := appendToFirst st.chat_sessions cid ⟨sender, text, now⟩ }

/-- `save_chat_history` (lines 495–498): `json.dump` the whole session
list into `chat_history.json`, overwriting it. -/
def save_chat_history (st : AppState) : AppState :=
  { st with file := some (dumpSessions st.chat_sessions) }

/-- `load_chat_history` (lines 500–504): if `chat_history.json` exists,
`json.load` it and replace the in-memory session list; a missing file
leaves the list as it is.  A file whose contents fail to parse makes
`json.load` raise, modelled as `none`. -/
def load_chat_history (st : AppState) : Option AppState :=
  match st.file with
  | none => some st
  | some txt => (loadSessions txt).map fun ss => { st with chat_sessions := ss }

/-- `handle_new_chat` (lines 135–147): build a new session dict with
`id = len(sessions) + 1`, `name = "Chat " + str(len(sessions) + 1)`,
empty messages and `created_at = now`; append it to the store, make it
the active session, and `save_chat_history`. -/
def handle_new_chat (st : AppState) (now : String) : AppState :=
  let n := st.chat_sessions.length + 1
  let newChat : ChatSession := ⟨n, "Chat " ++ toString n, [], now⟩
  save_chat_history
    { st with
      chat_sessions := st.chat_sessions ++ [newChat],
      current_chat_id := some n }

/-- `delete_chat(chat_id)` (lines 417–425): keep exactly the sessions
whose id differs from `chat_id` (a list comprehension, preserving
order); if the deleted id was the active one, clear the active pointer;
then `save_chat_history`. -/
def delete_chat (st : AppState) (chat_id : Nat) : AppState :=
  save_chat_history
    { st with
      chat_sessions := st.chat_sessions.filter (fun s => s.id ≠ chat_id),
      current_chat_id :=
        if st.current_chat_id = some chat_id then none else st.current_chat_id }

/-- `validate_send_conditions` (lines 483–493): require a selected
model value that is truthy (not `None`, not empty), present among the
dropdown's option keys, and a non-blank input field.  The function
reads nothing else — in particular no stream-progress state. -/
def validate_send_conditions (st : AppState) : Bool :=
  match st.model_value with
  | none => false
  | some v =>
    if v = "" then false
    else if ¬ st.model_options.contains v then false
    else if pyStrip st.chat_input = "" then false
    else true

/-- `handle_send_message` (lines 221–249): if validation fails, return
unchanged; otherwise commit the stripped input as a user message
(`display_user_message` → `add_message_to_session("user", prompt)`),
unconditionally start a new background streaming worker
(`process_ai_response(prompt)` ends in
`threading.Thread(...).start()`, modelled as `inFlight + 1`), and clear
the input field. -/
def handle_send_message (st : AppState) (now : String) : AppState :=
  if ¬ validate_send_conditions st then st
  else
    let prompt := pyStrip st.chat_input
    let st1 := add_message_to_session st "user" prompt now
    { st1 with inFlight := st1.inFlight + 1, chat_input := "" }

/-- Termination of one streaming worker, observed at the moment its
stream ends: the thread exits (`inFlight - 1`); if the loop ran to
exhaustion, `finalize` commits the accumulation via
`add_message_to_session("ai", ...)` against the session list and the
active pointer as they are at that moment; if the stream failed, the
error was surfaced and nothing is committed. -/
def runStream (st : AppState) (lines : List Line) (now : String) : AppState :=
  let st1 := { st with inFlight := st.inFlight - 1 }
  match process_ai_response lines with
  | .committed t => add_message_to_session st1 "ai" t now
  | .failed _ => st1

/-- Whether a fragment is an error fragment. -/
def Chunk.isErr : Chunk → Bool
  | .err _ => true
  | _ => false

/-- Whether a line stops the main copy's stream loop: a line that is not
valid JSON, or an error fragment. -/
def Line.stopsLoop : Line → Bool
  | .malformed => true
  | .chunk (.err _) => true
  | _ => false

/-- The concatenation of the text fields of a line sequence's text
fragments, in arrival order. -/
def concatTexts : List Line → String
  | [] => ""
  | .chunk (.text s) :: rest => s ++ concatTexts rest
  | _ :: rest => concatTexts rest

/-- The session store's append operation as §4.3 of the specification
words it (the second definition of a refinement pair, to be compared
with `add_message_to_session` from the source): `appendMessage` fails
with `SessionNotFound` if no session with that id exists, otherwise
appends to that session's message sequence, preserving order. -/
def appendMessage_spec (sessions : List ChatSession) (sessionId : Nat)
    (msg : Message) : Except String (List ChatSession) :=
  if sessions.any fun s => s.id = sessionId then
    Except.ok (appendToFirst sessions sessionId msg)
  else Except.error "SessionNotFound"

theorem parseLit_append (lit cs : List Char) : parseLit lit (lit ++ cs) = some cs := by
  induction lit generalizing cs with
  | nil => rfl
  | cons l ls ih => simp [parseLit, ih]

theorem isHexDigitChar_hexDigitChar (m : Nat) (h : m < 16) :
    isHexDigitChar (hexDigitChar m) = true := by
  interval_cases m <;> decide

theorem hexVal_hexDigitChar (m : Nat) (h : m < 16) : hexVal (hexDigitChar m) = m := by
  interval_cases m <;> decide

theorem escapeChar_length_pos (c : Char) : 1 ≤ (escapeChar c).length := by
  unfold escapeChar
  repeat' split
  all_goals simp

theorem parseStringBody_escapeChar (c : Char) (fuel : Nat) (X : List Char) :
    parseStringBody (fuel + 1) (escapeChar c ++ X) =
      (parseStringBody fuel X).map fun p => (c :: p.1, p.2) := by
  by_cases h1 : c = '"'
  · subst h1; simp [escapeChar, parseStringBody]
  by_cases h2 : c = '\\'
  · subst h2; simp [escapeChar, parseStringBody]
  by_cases h3 : c = '\n'
  · subst h3; simp [escapeChar, parseStringBody]
  by_cases h4 : c = '\t'
  · subst h4; simp [escapeChar, parseStringBody]
  by_cases h5 : c = '\r'
  · subst h5; simp [escapeChar, parseStringBody]
  by_cases h6 : c.toNat = 8
  · have he : escapeChar c = ['\\', 'b'] := by
      simp [escapeChar, h1, h2, h3, h4, h5, h6]
    have hc : Char.ofNat 8 = c := by rw [← h6]; exact Char.ofNat_toNat c
    rw [he, ← hc]
    simp [parseStringBody]
  by_cases h7 : c.toNat = 12
  · have he : escapeChar c = ['\\', 'f'] := by
      simp [escapeChar, h1, h2, h3, h4, h5, h6, h7]
    have hc : Char.ofNat 12 = c := by rw [← h7]; exact Char.ofNat_toNat c
    rw [he, ← hc]
    simp [parseStringBody]
  by_cases h8 : c.toNat < 32
  · have he : escapeChar c =
        ['\\', 'u', '0', '0', hexDigitChar (c.toNat / 16), hexDigitChar (c.toNat % 16)] := by
      simp [escapeChar, h1, h2, h3, h4, h5, h6, h7, h8]
    have hd1 : c.toNat / 16 < 16 := by omega
    have hd2 : c.toNat % 16 < 16 := by omega
    have hx1 := isHexDigitChar_hexDigitChar _ hd1
    have hx2 := isHexDigitChar_hexDigitChar _ hd2
    have hc : Char.ofNat (((hexVal '0' * 16 + hexVal '0') * 16 +
        hexVal (hexDigitChar (c.toNat / 16))) * 16 +
        hexVal (hexDigitChar (c.toNat % 16))) = c := by
      rw [hexVal_hexDigitChar _ hd1, hexVal_hexDigitChar _ hd2,
        show hexVal '0' = 0 from by decide,
        show ((0 * 16 + 0) * 16 + c.toNat / 16) * 16 + c.toNat % 16 = c.toNat from by omega]
      exact Char.ofNat_toNat c
    have hx0 : isHexDigitChar '0' = true := by decide
    rw [he]
    conv_rhs => rw [← hc]
    simp [parseStringBody, hx0, hx1, hx2]
  · have he : escapeChar c = [c] := by
      simp [escapeChar, h1, h2, h3, h4, h5, h6, h7, h8]
    rw [he]
    simp [parseStringBody, h1, h2]

theorem parseStringBody_escape (l : List Char) :
    ∀ (fuel : Nat) (rest : List Char), (escapeList l).length + 1 ≤ fuel →
      parseStringBody fuel (escapeList l ++ '"' :: rest) = some (l, rest) := by
  induction l with
  | nil =>
    intro fuel rest hfuel
    match fuel, hfuel with
    | fuel + 1, _ => simp [escapeList, parseStringBody]
  | cons c tl ih =>
    intro fuel rest hfuel
    rw [show escapeList (c :: tl) = escapeChar c ++ escapeList tl from rfl] at hfuel ⊢
    have h1 := escapeChar_length_pos c
    rw [List.length_append] at hfuel
    match fuel, hfuel with
    | fuel + 1, hfuel =>
      rw [List.append_assoc, parseStringBody_escapeChar,
        ih fuel rest (by omega)]
      rfl

theorem parseJString_dump (s : String) (rest : List Char) :
    parseJString (dumpStringChars s ++ rest) = some (s.data, rest) := by
  rw [show dumpStringChars s ++ rest = '"' :: (escapeList s.data ++ '"' :: rest) from by
    simp [dumpStringChars]]
  simp only [parseJString]
  exact parseStringBody_escape s.data _ rest (by simp [List.length_append])

theorem natCharsAux_zero (fuel : Nat) : natCharsAux fuel 0 = [] := by
  cases fuel <;> simp [natCharsAux]

theorem natCharsAux_eq (fuel : Nat) : ∀ n, 0 < n → n ≤ fuel →
    natCharsAux fuel n = ((Nat.digits 10 n).map decDigitChar).reverse := by
  induction fuel with
  | zero => intro n h1 h2; omega
  | succ f ih =>
    intro n h1 h2
    rw [natCharsAux, if_neg (by omega), Nat.digits_def' (by norm_num : (1:Nat) < 10) h1]
    rcases Nat.eq_zero_or_pos (n / 10) with h0 | hpos
    · rw [h0, natCharsAux_zero]
      simp
    · rw [ih (n / 10) hpos (by omega)]
      simp

theorem decDigitChar_isDigit (d : Nat) (h : d < 10) : (decDigitChar d).isDigit = true := by
  interval_cases d <;> decide

theorem decDigitChar_toNat (d : Nat) (h : d < 10) : (decDigitChar d).toNat = 48 + d := by
  interval_cases d <;> decide

theorem natChars_digits (n : Nat) : ∀ c ∈ natChars n, c.isDigit = true := by
  unfold natChars
  by_cases h : n = 0
  · subst h; intro c hc; simp at hc; subst hc; decide
  · rw [if_neg h, natCharsAux_eq n n (by omega) le_rfl]
    intro c hc
    rw [List.mem_reverse, List.mem_map] at hc
    obtain ⟨d, hd, rfl⟩ := hc
    exact decDigitChar_isDigit d (Nat.digits_lt_base (by norm_num) hd)

theorem natChars_ne_nil (n : Nat) : natChars n ≠ [] := by
  unfold natChars
  by_cases h : n = 0
  · subst h; simp
  · rw [if_neg h, natCharsAux_eq n n (by omega) le_rfl]
    simp [Nat.digits_ne_nil_iff_ne_zero, h]

theorem foldl_mul_add_reverse (L : List Nat) (a : Nat) :
    List.foldl (fun acc d => acc * 10 + d) a L.reverse =
      a * 10 ^ L.length + Nat.ofDigits 10 L := by
  induction L generalizing a with
  | nil => simp
  | cons d L ih =>
    simp only [List.reverse_cons, List.foldl_append, List.foldl_cons, List.foldl_nil, ih,
      Nat.ofDigits_cons, List.length_cons, pow_succ]
    ring

theorem foldl_chars (L : List Nat) (hL : ∀ d ∈ L, d < 10) (a : Nat) :
    List.foldl (fun acc c => acc * 10 + (c.toNat - 48)) a (L.map decDigitChar) =
      List.foldl (fun acc d => acc * 10 + d) a L := by
  induction L generalizing a with
  | nil => rfl
  | cons d L ih =>
    simp only [List.map_cons, List.foldl_cons]
    rw [decDigitChar_toNat d (hL d (by simp)),
      show 48 + d - 48 = d from by omega]
    exact ih (fun x hx => hL x (by simp [hx])) _

theorem natChars_foldl (n : Nat) :
    (natChars n).foldl (fun acc c => acc * 10 + (c.toNat - 48)) 0 = n := by
  unfold natChars
  by_cases h : n = 0
  · subst h; decide
  · rw [if_neg h, natCharsAux_eq n n (by omega) le_rfl,
      show ((Nat.digits 10 n).map decDigitChar).reverse =
        ((Nat.digits 10 n).reverse).map decDigitChar from by rw [List.map_reverse],
      foldl_chars _ (fun d hd => Nat.digits_lt_base (by norm_num)
        (List.mem_reverse.mp hd)),
      show (Nat.digits 10 n).reverse = ((Nat.digits 10 n).reverse.reverse).reverse from by
        simp,
      foldl_mul_add_reverse]
    simp [Nat.ofDigits_digits]

theorem takeWhile_append_cons (p : Char → Bool) (xs : List Char) (c : Char)
    (rest : List Char) (hxs : ∀ x ∈ xs, p x = true) (hc : p c = false) :
    (xs ++ c :: rest).takeWhile p = xs ∧ (xs ++ c :: rest).dropWhile p = c :: rest := by
  induction xs with
  | nil => simp [List.takeWhile_cons, List.dropWhile_cons, hc]
  | cons x xs ih =>
    have hx : p x = true := hxs x (by simp)
    have h2 := ih (fun y hy => hxs y (by simp [hy]))
    simp [List.takeWhile_cons, List.dropWhile_cons, hx, h2]

theorem parseNatChars_natChars (n : Nat) (c : Char) (rest : List Char)
    (hc : c.isDigit = false) :
    parseNatChars (natChars n ++ c :: rest) = some (n, c :: rest) := by
  obtain ⟨ht, hd⟩ := takeWhile_append_cons Char.isDigit (natChars n) c rest
    (natChars_digits n) hc
  unfold parseNatChars
  simp only [ht, hd]
  rw [if_neg (by simp [List.isEmpty_iff, natChars_ne_nil n])]
  rw [natChars_foldl]

theorem stringMk_data (s : String) : String.mk s.data = s := rfl

theorem parseMessage_dump (m : Message) (rest : List Char) :
    parseMessage (dumpMessageChars m ++ rest) = some (m, rest) := by
  obtain ⟨sender, text, ts⟩ := m
  simp only [dumpMessageChars, List.append_assoc]
  simp [parseMessage, parseLit_append, parseJString_dump, stringMk_data]

theorem msgsTailChars_length (ms : List Message) :
    ms.length ≤ (msgsTailChars ms).length := by
  induction ms with
  | nil => simp [msgsTailChars]
  | cons m tl ih => simp [msgsTailChars]; omega

theorem parseMessagesTail_dump (ms : List Message) :
    ∀ (fuel : Nat) (rest : List Char), ms.length + 1 ≤ fuel →
      parseMessagesTail fuel (msgsTailChars ms ++ ']' :: rest) = some (ms, rest) := by
  induction ms with
  | nil =>
    intro fuel rest h
    match fuel, h with
    | fuel + 1, _ => simp [msgsTailChars, parseMessagesTail]
  | cons m tl ih =>
    intro fuel rest h
    match fuel, h with
    | fuel + 1, h =>
      rw [show msgsTailChars (m :: tl) ++ ']' :: rest =
          ',' :: ' ' :: (dumpMessageChars m ++ (msgsTailChars tl ++ ']' :: rest)) from by
        simp [msgsTailChars]]
      simp [parseMessagesTail, parseMessage_dump,
        ih fuel rest (by simp [List.length_cons] at h; omega)]

theorem dumpMessageChars_cons (m : Message) (X : List Char) :
    dumpMessageChars m ++ X = '\x7b' ::
      ("\"sender\": ".data ++ (dumpStringChars m.sender ++ (litText ++
        (dumpStringChars m.text ++ (litTimestamp ++
          (dumpStringChars m.timestamp ++ (litClose ++ X))))))) := by
  rw [dumpMessageChars, show litMsgOpen = '\x7b' :: "\"sender\": ".data from rfl]
  simp

theorem parseMessages_dump (ms : List Message) (rest : List Char) :
    parseMessages (dumpMessagesChars ms ++ rest) = some (ms, rest) := by
  cases ms with
  | nil => simp [dumpMessagesChars, parseMessages]
  | cons m tl =>
    rw [show dumpMessagesChars (m :: tl) ++ rest =
        '[' :: (dumpMessageChars m ++ (msgsTailChars tl ++ ']' :: rest)) from by
      simp [dumpMessagesChars]]
    obtain ⟨t, ht⟩ : ∃ t, dumpMessageChars m ++ (msgsTailChars tl ++ ']' :: rest) =
        '\x7b' :: t := ⟨_, dumpMessageChars_cons m _⟩
    rw [ht]
    have hred : parseMessages ('[' :: '\x7b' :: t) =
        match parseMessage ('\x7b' :: t) with
        | some (m2, cs2) =>
          match parseMessagesTail cs2.length cs2 with
          | some (ms, rest2) => some (m2 :: ms, rest2)
          | none => none
        | none => none := rfl
    rw [hred, ← ht]
    rw [parseMessage_dump]
    have hlen : tl.length + 1 ≤ (msgsTailChars tl ++ ']' :: rest).length := by
      have := msgsTailChars_length tl
      simp [List.length_append]; omega
    have h2 := parseMessagesTail_dump tl ((msgsTailChars tl).length + (rest.length + 1)) rest
      (by simp only [List.length_append, List.length_cons] at hlen ⊢; omega)
    simp [h2]

theorem parseSession_dump (s : ChatSession) (rest : List Char) :
    parseSession (dumpSessionChars s ++ rest) = some (s, rest) := by
  obtain ⟨i, nm, ms, ca⟩ := s
  simp only [dumpSessionChars, List.append_assoc]
  have hnat : ∀ X : List Char,
      parseNatChars (natChars i ++ (litName ++ X)) = some (i, litName ++ X) := by
    intro X
    have h : litName ++ X = ',' :: (" \"name\": ".data ++ X) := rfl
    rw [h, parseNatChars_natChars i ',' _ (by decide), ← h]
  simp [parseSession, parseLit_append, hnat, parseJString_dump,
    parseMessages_dump, stringMk_data]

theorem sessTailChars_length (ss : List ChatSession) :
    ss.length ≤ (sessTailChars ss).length := by
  induction ss with
  | nil => simp [sessTailChars]
  | cons s tl ih => simp [sessTailChars]; omega

theorem parseSessionsTail_dump (ss : List ChatSession) :
    ∀ (fuel : Nat) (rest : List Char), ss.length + 1 ≤ fuel →
      parseSessionsTail fuel (sessTailChars ss ++ ']' :: rest) = some (ss, rest) := by
  induction ss with
  | nil =>
    intro fuel rest h
    match fuel, h with
    | fuel + 1, _ => simp [sessTailChars, parseSessionsTail]
  | cons s tl ih =>
    intro fuel rest h
    match fuel, h with
    | fuel + 1, h =>
      rw [show sessTailChars (s :: tl) ++ ']' :: rest =
          ',' :: ' ' :: (dumpSessionChars s ++ (sessTailChars tl ++ ']' :: rest)) from by
        simp [sessTailChars]]
      simp [parseSessionsTail, parseSession_dump,
        ih fuel rest (by simp [List.length_cons] at h; omega)]

theorem dumpSessionChars_cons (s : ChatSession) (X : List Char) :
    dumpSessionChars s ++ X = '\x7b' ::
      ("\"id\": ".data ++ (natChars s.id ++ (litName ++ (dumpStringChars s.name ++
        (litMessages ++ (dumpMessagesChars s.messages ++ (litCreated ++
          (dumpStringChars s.created_at ++ (litClose ++ X))))))))) := by
  rw [dumpSessionChars, show litSessOpen = '\x7b' :: "\"id\": ".data from rfl]
  simp

theorem parseSessions_dump (ss : List ChatSession) (rest : List Char) :
    parseSessions (dumpSessionsChars ss ++ rest) = some (ss, rest) := by
  cases ss with
  | nil => simp [dumpSessionsChars, parseSessions]
  | cons s tl =>
    rw [show dumpSessionsChars (s :: tl) ++ rest =
        '[' :: (dumpSessionChars s ++ (sessTailChars tl ++ ']' :: rest)) from by
      simp [dumpSessionsChars]]
    obtain ⟨t, ht⟩ : ∃ t, dumpSessionChars s ++ (sessTailChars tl ++ ']' :: rest) =
        '\x7b' :: t := ⟨_, dumpSessionChars_cons s _⟩
    rw [ht]
    have hred : parseSessions ('[' :: '\x7b' :: t) =
        match parseSession ('\x7b' :: t) with
        | some (s2, cs2) =>
          match parseSessionsTail cs2.length cs2 with
          | some (ss2, rest2) => some (s2 :: ss2, rest2)
          | none => none
        | none => none := rfl
    rw [hred, ← ht]
    rw [parseSession_dump]
    have hlen : tl.length + 1 ≤ (sessTailChars tl ++ ']' :: rest).length := by
      have := sessTailChars_length tl
      simp [List.length_append]; omega
    have h2 := parseSessionsTail_dump tl ((sessTailChars tl).length + (rest.length + 1)) rest
      (by simp only [List.length_append, List.length_cons] at hlen ⊢; omega)
    simp [h2]

theorem loadSessions_dumpSessions (ss : List ChatSession) :
    loadSessions (dumpSessions ss) = some ss := by
  have h := parseSessions_dump ss []
  rw [List.append_nil] at h
  simp [loadSessions, dumpSessions, h]

/-! ## Stream-accumulator lemmas -/

theorem processLines_clean (lines : List Line) :
    ∀ acc : String, (∀ l ∈ lines, l.stopsLoop = false) →
      processLines lines acc = .committed (acc ++ concatTexts lines) := by
  induction lines with
  | nil => intro acc _; simp [processLines, concatTexts]
  | cons l rest ih =>
    intro acc h
    have hl : l.stopsLoop = false := h l (by simp)
    have hrest : ∀ l ∈ rest, l.stopsLoop = false := fun x hx => h x (by simp [hx])
    match l, hl with
    | .blank, _ =>
      rw [show processLines (Line.blank :: rest) acc = processLines rest acc from rfl,
        ih acc hrest]
      rfl
    | .chunk (.text s), _ =>
      rw [show processLines (Line.chunk (Chunk.text s) :: rest) acc =
          processLines rest (acc ++ s) from rfl, ih (acc ++ s) hrest,
        show concatTexts (Line.chunk (Chunk.text s) :: rest) = s ++ concatTexts rest from rfl,
        String.append_assoc]
    | .chunk .other, _ =>
      rw [show processLines (Line.chunk Chunk.other :: rest) acc =
          processLines rest acc from rfl, ih acc hrest]
      rfl

theorem processLines_stops_err (e : String) (suf : List Chunk) (pre : List Chunk) :
    ∀ acc : String, (∀ f ∈ pre, f.isErr = false) →
      processLines ((pre ++ Chunk.err e :: suf).map Line.chunk) acc =
        .failed ("AI Error: " ++ e) := by
  induction pre with
  | nil => intro acc _; rfl
  | cons f rest ih =>
    intro acc h
    have hf : f.isErr = false := h f (by simp)
    have hrest : ∀ x ∈ rest, x.isErr = false := fun x hx => h x (by simp [hx])
    match f, hf with
    | .text s, _ => exact ih (acc ++ s) hrest
    | .other, _ => exact ih acc hrest

theorem processLines_stops_malformed (suf : List Line) (pre : List Line) :
    ∀ acc : String, (∀ l ∈ pre, l.stopsLoop = false) →
      processLines (pre ++ Line.malformed :: suf) acc = .failed ("Processing Error") := by
  induction pre with
  | nil => intro acc _; rfl
  | cons l rest ih =>
    intro acc h
    have hl : l.stopsLoop = false := h l (by simp)
    have hrest : ∀ x ∈ rest, x.stopsLoop = false := fun x hx => h x (by simp [hx])
    match l, hl with
    | .blank, _ => exact ih acc hrest
    | .chunk (.text s), _ => exact ih (acc ++ s) hrest
    | .chunk .other, _ => exact ih acc hrest

theorem processLinesCopy_skip_malformed (l2 : List Line) (l1 : List Line) :
    ∀ acc : String, processLinesCopy (l1 ++ Line.malformed :: l2) acc =
      processLinesCopy (l1 ++ l2) acc := by
  induction l1 with
  | nil => intro acc; rfl
  | cons l rest ih =>
    intro acc
    match l with
    | .blank => exact ih acc
    | .malformed => exact ih acc
    | .chunk (.text s) => exact ih (acc ++ s)
    | .chunk (.err e) => rfl
    | .chunk .other => exact ih acc

/-! ## Session-store lemmas -/

theorem appendToFirst_no_match (l : List ChatSession) (cid : Nat) (msg : Message)
    (h : ∀ s ∈ l, s.id ≠ cid) : appendToFirst l cid msg = l := by
  induction l with
  | nil => rfl
  | cons s rest ih =>
    rw [appendToFirst, if_neg (h s (by simp)), ih (fun x hx => h x (by simp [hx]))]

theorem appendToFirst_split (pre : List ChatSession) (s : ChatSession)
    (post : List ChatSession) (cid : Nat) (msg : Message)
    (hpre : ∀ x ∈ pre, x.id ≠ cid) (hs : s.id = cid) :
    appendToFirst (pre ++ s :: post) cid msg =
      pre ++ { s with messages := s.messages ++ [msg] } :: post := by
  induction pre with
  | nil => simp [appendToFirst, hs]
  | cons x rest ih =>
    simp only [List.cons_append, appendToFirst, if_neg (hpre x (by simp)), List.append_eq]
    rw [ih (fun y hy => hpre y (by simp [hy]))]

theorem add_message_no_match (st : AppState) (cid : Nat) (sender text now : String)
    (hcur : st.current_chat_id = some cid) (h : ∀ s ∈ st.chat_sessions, s.id ≠ cid) :
    add_message_to_session st sender text now = st := by
  obtain ⟨cs, cur, mv, mo, ci, fl, f⟩ := st
  simp only [add_message_to_session] at *
  rw [hcur]
  simp [appendToFirst_no_match cs cid _ h]

theorem add_message_none (st : AppState) (sender text now : String)
    (hcur : st.current_chat_id = none) :
    add_message_to_session st sender text now = st := by
  simp [add_message_to_session, hcur]

/-! ## The claims -/

/-- C1: for every finite sequence of stream fragments none of which is
an error fragment, the stream loop of `process_ai_response` runs to
exhaustion and commits exactly the concatenation of the fragments' text
fields in arrival order; at completion this text is appended as one new
assistant message at the end of the active session's messages, other
sessions and messages untouched. -/
theorem c1_commit_concat (st : AppState) (frags : List Chunk) (now : String)
    (cid : Nat) (hcur : st.current_chat_id = some cid)
    (herr : ∀ f ∈ frags, f.isErr = false) :
    process_ai_response (frags.map Line.chunk) =
      .committed (concatTexts (frags.map Line.chunk)) ∧
    (runStream st (frags.map Line.chunk) now).chat_sessions =
      appendToFirst st.chat_sessions cid
        ⟨"ai", concatTexts (frags.map Line.chunk), now⟩ ∧
    (∀ pre s post, st.chat_sessions = pre ++ s :: post →
      (∀ x ∈ pre, x.id ≠ cid) → s.id = cid →
      (runStream st (frags.map Line.chunk) now).chat_sessions =
        pre ++ { s with messages :=
          s.messages ++ [⟨"ai", concatTexts (frags.map Line.chunk), now⟩] } :: post) := by
  have hclean : ∀ l ∈ frags.map Line.chunk, l.stopsLoop = false := by
    intro l hl
    rw [List.mem_map] at hl
    obtain ⟨f, hf, rfl⟩ := hl
    have hf2 := herr f hf
    match f, hf2 with
    | .text s, _ => rfl
    | .other, _ => rfl
  have hproc : process_ai_response (frags.map Line.chunk) =
      .committed (concatTexts (frags.map Line.chunk)) := by
    rw [process_ai_response, processLines_clean _ "" hclean, String.empty_append]
  refine ⟨hproc, ?_, ?_⟩
  · simp only [runStream, hproc]
    simp [add_message_to_session, hcur]
  · intro pre s post hsplit hpre hs
    simp only [runStream, hproc]
    simp [add_message_to_session, hcur, hsplit,
      appendToFirst_split pre s post cid _ hpre hs]

/-- Witness for C1 at the scenario of §8 of the specification: fragments
`He`, `llo` on a store whose active session `1` is empty. -/
theorem c1_commit_concat_witness :
    process_ai_response (([Chunk.text ("He"), Chunk.text ("llo")]).map Line.chunk) =
      .committed (concatTexts (([Chunk.text ("He"), Chunk.text ("llo")]).map Line.chunk)) ∧
    (runStream ⟨[⟨1, "Chat 1", [], "t0"⟩], some 1, none, [], "", 1, none⟩
        (([Chunk.text ("He"), Chunk.text ("llo")]).map Line.chunk) "t1").chat_sessions =
      appendToFirst [⟨1, "Chat 1", [], "t0"⟩] 1
        ⟨"ai", concatTexts (([Chunk.text ("He"), Chunk.text ("llo")]).map Line.chunk), "t1"⟩ ∧
    (∀ pre s post, ([⟨1, "Chat 1", [], "t0"⟩] : List ChatSession) = pre ++ s :: post →
      (∀ x ∈ pre, x.id ≠ 1) → s.id = 1 →
      (runStream ⟨[⟨1, "Chat 1", [], "t0"⟩], some 1, none, [], "", 1, none⟩
          (([Chunk.text ("He"), Chunk.text ("llo")]).map Line.chunk) "t1").chat_sessions =
        pre ++ { s with messages :=
          s.messages ++
            [⟨"ai", concatTexts (([Chunk.text ("He"), Chunk.text ("llo")]).map Line.chunk),
              "t1"⟩] } :: post) :=
  c1_commit_concat ⟨[⟨1, "Chat 1", [], "t0"⟩], some 1, none, [], "", 1, none⟩
    [Chunk.text ("He"), Chunk.text ("llo")] "t1" 1 rfl (by decide)

/-- C2: if a fragment of the stream is an error fragment, the loop of
`process_ai_response` stops at the first such fragment (the fragments
after it have no influence), the failure is surfaced as an `AI Error`,
and the application state is left with no message committed to any
session — only the worker-thread count changes. -/
theorem c2_error_no_commit (st : AppState) (pre suf : List Chunk) (e : String)
    (now : String) (hpre : ∀ f ∈ pre, f.isErr = false) :
    process_ai_response ((pre ++ Chunk.err e :: suf).map Line.chunk) =
      .failed ("AI Error: " ++ e) ∧
    runStream st ((pre ++ Chunk.err e :: suf).map Line.chunk) now =
      { st with inFlight := st.inFlight - 1 } := by
  have hproc := processLines_stops_err e suf pre "" hpre
  refine ⟨hproc, ?_⟩
  simp only [runStream, process_ai_response, hproc]

/-- Witness for C2 at the scenario of §8 of the specification:
`Hm` then an error fragment `model crashed`. -/
theorem c2_error_no_commit_witness :
    process_ai_response
        (([Chunk.text ("Hm")] ++ Chunk.err ("model crashed") :: []).map Line.chunk) =
      .failed ("AI Error: " ++ "model crashed") ∧
    runStream ⟨[⟨1, "Chat 1", [], "t0"⟩], some 1, none, [], "", 1, none⟩
        (([Chunk.text ("Hm")] ++ Chunk.err ("model crashed") :: []).map Line.chunk) "t1" =
      { (⟨[⟨1, "Chat 1", [], "t0"⟩], some 1, none, [], "", 1, none⟩ : AppState) with
        inFlight := 1 - 1 } :=
  c2_error_no_commit ⟨[⟨1, "Chat 1", [], "t0"⟩], some 1, none, [], "", 1, none⟩
    [Chunk.text ("Hm")] [] "model crashed" "t1" (by decide)

/-- C3 counterexample: in `src/Local-AI-Chat/Local-AI-Chat.py` a
malformed transport line is not skipped — on the stream `text "a"`,
malformed line, `text "b"` the loop terminates with a surfaced
`Processing Error` and nothing is committed, where the claim requires
the outcome `committed "ab"` (which is what the `src/unnamed/part_000`
copy produces). -/
theorem c3_malformed_counterexample :
    process_ai_response
        [Line.chunk (Chunk.text ("a")), Line.malformed, Line.chunk (Chunk.text ("b"))] =
      .failed ("Processing Error") ∧
    process_ai_response
        [Line.chunk (Chunk.text ("a")), Line.malformed, Line.chunk (Chunk.text ("b"))] ≠
      .committed ("ab") ∧
    process_ai_response_copy
        [Line.chunk (Chunk.text ("a")), Line.malformed, Line.chunk (Chunk.text ("b"))] =
      .committed ("ab") := by
  refine ⟨rfl, by decide, rfl⟩

/-- C3 amended: in the copy `src/unnamed/part_000` a line that is not
valid JSON is skipped and processing continues with the next line; in
`src/Local-AI-Chat/Local-AI-Chat.py`, however, the first malformed line
terminates the stream with a surfaced `Processing Error` (no assistant
message is committed), because the `json.loads` exception is caught
only outside the loop. -/
theorem c3_malformed_amended (pre suf l1 l2 : List Line)
    (hpre : ∀ l ∈ pre, l.stopsLoop = false) :
    process_ai_response (pre ++ Line.malformed :: suf) = .failed ("Processing Error") ∧
    process_ai_response_copy (l1 ++ Line.malformed :: l2) =
      process_ai_response_copy (l1 ++ l2) := by
  exact ⟨processLines_stops_malformed suf pre "" hpre,
    processLinesCopy_skip_malformed l2 l1 ""⟩

/-- Witness for C3 amended: one good fragment before the malformed
line, one after. -/
theorem c3_malformed_amended_witness :
    process_ai_response
        ([Line.chunk (Chunk.text ("a"))] ++ Line.malformed ::
          [Line.chunk (Chunk.text ("b"))]) = .failed ("Processing Error") ∧
    process_ai_response_copy
        ([Line.chunk (Chunk.text ("a"))] ++ Line.malformed ::
          [Line.chunk (Chunk.text ("b"))]) =
      process_ai_response_copy
        ([Line.chunk (Chunk.text ("a"))] ++ [Line.chunk (Chunk.text ("b"))]) :=
  c3_malformed_amended [Line.chunk (Chunk.text ("a"))] [Line.chunk (Chunk.text ("b"))]
    [Line.chunk (Chunk.text ("a"))] [Line.chunk (Chunk.text ("b"))] (by decide)

/-- C4 counterexample: with one streaming worker already in flight
(`inFlight = 1`) on the active session, a second send passes
`validate_send_conditions` (which reads no stream state) and
`handle_send_message` starts a second concurrent worker
(`inFlight = 2`) — the send is not rejected. -/
theorem c4_second_send_counterexample :
    validate_send_conditions
      ⟨[⟨1, "Chat 1", [], "t0"⟩], some 1, some ("llama3"), ["llama3"], "hi", 1, none⟩ =
      true ∧
    (handle_send_message
        ⟨[⟨1, "Chat 1", [], "t0"⟩], some 1, some ("llama3"), ["llama3"], "hi", 1, none⟩
        "t1").inFlight = 2 := by
  refine ⟨rfl, rfl⟩

/-- C4 amended: a send on a session whose stream is still running is
not rejected: `validate_send_conditions` depends only on the model
selection and the input field, never on the number of in-flight
streams, and whenever it passes, `handle_send_message` starts one more
streaming worker regardless of how many are already running.  (Each
worker keeps its own accumulation, so the in-progress accumulated text
of the first stream is not modified.) -/
theorem c4_second_send_amended (st : AppState) (now : String)
    (h : validate_send_conditions st = true) :
    (handle_send_message st now).inFlight = st.inFlight + 1 ∧
    (∀ n : Nat, validate_send_conditions { st with inFlight := n } =
      validate_send_conditions st) := by
  constructor
  · rw [handle_send_message, if_neg (by rw [h]; simp)]
    simp [add_message_to_session]
    cases hcur : st.current_chat_id <;> simp
  · intro n
    rfl

/-- Witness for C4 amended at a state with one stream already in
flight. -/
theorem c4_second_send_amended_witness :
    (handle_send_message
        ⟨[⟨1, "Chat 1", [], "t0"⟩], some 1, some ("llama3"), ["llama3"], "hi", 1, none⟩
        "t1").inFlight = 1 + 1 :=
  (c4_second_send_amended
    ⟨[⟨1, "Chat 1", [], "t0"⟩], some 1, some ("llama3"), ["llama3"], "hi", 1, none⟩
    "t1" (by decide)).1

/-- C5: `handle_new_chat` assigns the new session the id
`(number of sessions currently in the store) + 1` (and the name
`Chat <id>`), appends it, and makes it the active session; on an empty
store two creates yield ids `1` and `2`, and after deleting session `1`
a further create yields id `2` again — a duplicate of the surviving
session's id. -/
theorem c5_create_session_ids :
    (∀ (st : AppState) (now : String),
      (handle_new_chat st now).chat_sessions =
        st.chat_sessions ++
          [⟨st.chat_sessions.length + 1,
            "Chat " ++ toString (st.chat_sessions.length + 1), [], now⟩] ∧
      (handle_new_chat st now).current_chat_id =
        some (st.chat_sessions.length + 1)) ∧
    (handle_new_chat ⟨[], none, none, [], "", 0, none⟩ "t1").chat_sessions.map
      ChatSession.id = [1] ∧
    (handle_new_chat (handle_new_chat ⟨[], none, none, [], "", 0, none⟩ "t1")
      "t2").chat_sessions.map ChatSession.id = [1, 2] ∧
    (handle_new_chat (delete_chat (handle_new_chat (handle_new_chat
        ⟨[], none, none, [], "", 0, none⟩ "t1") "t2") 1) "t3").chat_sessions.map
      ChatSession.id = [2, 2] := by
  refine ⟨?_, rfl, rfl, rfl⟩
  intro st now
  constructor <;> simp [handle_new_chat, save_chat_history]

/-- C6: deleting the active session clears the active pointer, so when
a stream that was running against it later terminates — by completion
or failure — the commit step finds no session and no message is
appended to any session in the store. -/
theorem c6_delete_active_no_commit (st : AppState) (i : Nat) (lines : List Line)
    (now : String) (hactive : st.current_chat_id = some i) :
    (runStream (delete_chat st i) lines now).chat_sessions =
      (delete_chat st i).chat_sessions := by
  have hcur : (delete_chat st i).current_chat_id = none := by
    simp [delete_chat, save_chat_history, hactive]
  cases hout : process_ai_response lines with
  | committed t =>
    simp only [runStream, hout]
    rw [add_message_none _ "ai" t now (by simp [hcur])]
  | failed msg =>
    simp only [runStream, hout]

/-- Witness for C6: deleting the single active session, then a stream
completing with the fragment `Hello`. -/
theorem c6_delete_active_no_commit_witness :
    (runStream
        (delete_chat ⟨[⟨1, "Chat 1", [], "t0"⟩], some 1, none, [], "", 1, none⟩ 1)
        [Line.chunk (Chunk.text ("Hello"))] "t2").chat_sessions =
      (delete_chat ⟨[⟨1, "Chat 1", [], "t0"⟩], some 1, none, [], "", 1, none⟩
        1).chat_sessions :=
  c6_delete_active_no_commit ⟨[⟨1, "Chat 1", [], "t0"⟩], some 1, none, [], "", 1, none⟩
    1 [Line.chunk (Chunk.text ("Hello"))] "t2" rfl

/-- C7: persisting any session list with `save_chat_history`
(`json.dump`) and reading it back with `load_chat_history`
(`json.load`) reconstructs the same list — same ids, names, message
order and content. -/
theorem c7_save_load_roundtrip (st : AppState) :
    loadSessions (dumpSessions st.chat_sessions) = some st.chat_sessions ∧
    load_chat_history (save_chat_history st) = some (save_chat_history st) := by
  refine ⟨loadSessions_dumpSessions _, ?_⟩
  obtain ⟨cs, cur, mv, mo, ci, fl, f⟩ := st
  simp [load_chat_history, save_chat_history, loadSessions_dumpSessions]

/-- C8 counterexample: on a store with no sessions and active pointer
`1`, the specification-side `appendMessage_spec` fails with
`SessionNotFound`, but `add_message_to_session` from the source returns
the state completely unchanged — it neither fails nor surfaces
anything, so the claim's "fails with SessionNotFound" is false of the
code. -/
theorem c8_missing_session_counterexample :
    appendMessage_spec [] 1 ⟨"ai", "x", "t1"⟩ = Except.error ("SessionNotFound") ∧
    add_message_to_session ⟨[], some 1, none, [], "", 0, none⟩ "ai" "x" "t1" =
      ⟨[], some 1, none, [], "", 0, none⟩ := by
  refine ⟨rfl, rfl⟩

/-- C8 amended: when no session with the active id exists,
`add_message_to_session` is a silent no-op — the state is returned
unchanged and no error is raised or surfaced (the code has no
`SessionNotFound` path); when such a session exists, the message is
appended at the end of the first matching session's message sequence
and all existing messages and sessions keep their order. -/
theorem c8_append_message_amended (st : AppState) (cid : Nat)
    (sender text now : String) (hcur : st.current_chat_id = some cid) :
    ((∀ s ∈ st.chat_sessions, s.id ≠ cid) →
      add_message_to_session st sender text now = st) ∧
    (∀ pre s post, st.chat_sessions = pre ++ s :: post →
      (∀ x ∈ pre, x.id ≠ cid) → s.id = cid →
      (add_message_to_session st sender text now).chat_sessions =
        pre ++ { s with messages := s.messages ++ [⟨sender, text, now⟩] } :: post) := by
  constructor
  · intro h
    exact add_message_no_match st cid sender text now hcur h
  · intro pre s post hsplit hpre hs
    simp [add_message_to_session, hcur, hsplit,
      appendToFirst_split pre s post cid _ hpre hs]

/-- Witness for C8 amended: appending to a store whose single session
carries the active id. -/
theorem c8_append_message_amended_witness :
    (add_message_to_session ⟨[⟨1, "Chat 1", [], "t0"⟩], some 1, none, [], "", 0, none⟩
        "ai" "hi" "t1").chat_sessions =
      [] ++ { (⟨1, "Chat 1", [], "t0"⟩ : ChatSession) with
        messages := [] ++ [⟨"ai", "hi", "t1"⟩] } :: [] :=
  (c8_append_message_amended ⟨[⟨1, "Chat 1", [], "t0"⟩], some 1, none, [], "", 0, none⟩
    1 "ai" "hi" "t1" rfl).2 [] ⟨1, "Chat 1", [], "t0"⟩ [] rfl (by simp) rfl

/-- C9 counterexample: starting from a state whose persistence file is
in sync with the store, appending a message mutates the in-memory
session list but leaves the file untouched, so after this mutating
session operation the file no longer equals the dump of the current
in-memory list. -/
theorem c9_append_no_save_counterexample :
    (⟨[⟨1, "Chat 1", [], "t0"⟩], some 1, none, [], "", 0,
        some (dumpSessions [⟨1, "Chat 1", [], "t0"⟩])⟩ : AppState).file =
      some (dumpSessions
        (⟨[⟨1, "Chat 1", [], "t0"⟩], some 1, none, [], "", 0,
          some (dumpSessions [⟨1, "Chat 1", [], "t0"⟩])⟩ : AppState).chat_sessions) ∧
    (add_message_to_session
        ⟨[⟨1, "Chat 1", [], "t0"⟩], some 1, none, [], "", 0,
          some (dumpSessions [⟨1, "Chat 1", [], "t0"⟩])⟩ "user" "hi" "t1").file ≠
      some (dumpSessions
        (add_message_to_session
          ⟨[⟨1, "Chat 1", [], "t0"⟩], some 1, none, [], "", 0,
            some (dumpSessions [⟨1, "Chat 1", [], "t0"⟩])⟩ "user" "hi"
          "t1").chat_sessions) := by
  refine ⟨rfl, by decide⟩

/-- C9 amended: creating and deleting sessions rewrite the persistence
file in full so that it equals the dump of the current in-memory
session list, but appending a message to a session writes nothing —
`add_message_to_session` leaves the file exactly as it was. -/
theorem c9_persistence_amended (st : AppState) (i : Nat)
    (now sender text : String) :
    (handle_new_chat st now).file =
      some (dumpSessions (handle_new_chat st now).chat_sessions) ∧
    (delete_chat st i).file = some (dumpSessions (delete_chat st i).chat_sessions) ∧
    (add_message_to_session st sender text now).file = st.file := by
  refine ⟨rfl, rfl, ?_⟩
  cases hcur : st.current_chat_id <;> simp [add_message_to_session, hcur]

/-- C10: `delete_chat` keeps exactly the sessions whose id differs from
the argument — with duplicate ids one call removes all of them — and
the surviving sessions keep their relative order (the result is the
order-preserving filter of the original list). -/
theorem c10_delete_filters (st : AppState) (i : Nat) :
    (delete_chat st i).chat_sessions =
      st.chat_sessions.filter (fun s => s.id ≠ i) ∧
    (∀ s ∈ (delete_chat st i).chat_sessions, s.id ≠ i) ∧
    (delete_chat st i).chat_sessions.Sublist st.chat_sessions := by
  refine ⟨rfl, ?_, ?_⟩
  · intro s hs
    rw [show (delete_chat st i).chat_sessions =
        st.chat_sessions.filter (fun s => s.id ≠ i) from rfl] at hs
    rw [List.mem_filter] at hs
    simpa using hs.2
  · rw [show (delete_chat st i).chat_sessions =
      st.chat_sessions.filter (fun s => s.id ≠ i) from rfl]
    exact List.filter_sublist _
